import Mathlib

/-!
Verification of the tresor secrets-vault specification against the
repository's C interface (`src/c/tresor.h`).

The repository ships only the interface header: the error enumeration
`TresorError` and the eleven function declarations.  Those are embedded
literally below (`TresorError`, `CDecl`, `tresorHeader`).  The behaviour
behind the declarations is modelled from the specification document, one
definition per operation; every such definition carries a doc comment
starting `Modelled from the spec:`.
-/

/-- The `TresorError` enumeration of `src/c/tresor.h`, lines 1-9. -/
inductive TresorError where
  | ERR_SUCCESS
  | ERR_AOM
  | ERR_DNE
  | ERR_DE
  | ERR_FILE
  | ERR_SEAL
  | ERR_FAIL
  deriving DecidableEq, Repr

/-- The integer value each enumerator carries in the C enum. -/
def TresorError.code : TresorError → Int
  | .ERR_SUCCESS => 0
  | .ERR_AOM => -1
  | .ERR_DNE => -2
  | .ERR_DE => -3
  | .ERR_FILE => -4
  | .ERR_SEAL => -5
  | .ERR_FAIL => -6

/-- C types appearing in the declarations of `src/c/tresor.h`.
`voidPtr` covers the opaque `Tresor` and `Entry` typedefs (both `void*`). -/
inductive CType where
  | void
  | voidPtr
  | voidPtrPtr
  | constCharPtr
  | tresorError
  deriving DecidableEq, Repr

/-- One C function declaration: name, return type, parameter types. -/
structure CDecl where
  name : String
  ret : CType
  params : List CType
  deriving DecidableEq, Repr

/-- The eleven declarations of `src/c/tresor.h`, lines 14-24, transcribed
in order. -/
def tresorHeader : List CDecl :=
  [ ⟨"Tresor_new", .voidPtr, [.constCharPtr]⟩,
    ⟨"Tresor_deinit", .void, []⟩,
    ⟨"Tresor_entry_create", .tresorError, [.voidPtr, .constCharPtr]⟩,
    ⟨"Tresor_entry_get", .voidPtr, [.voidPtr, .constCharPtr]⟩,
    ⟨"Tresor_entry_remove", .tresorError, [.voidPtr, .constCharPtr]⟩,
    ⟨"Tresor_entry_get_many", .voidPtrPtr, [.voidPtr, .constCharPtr]⟩,
    ⟨"Tresor_entry_filed_add", .tresorError, [.voidPtr, .constCharPtr, .constCharPtr]⟩,
    ⟨"Tresor_entry_field_get", .constCharPtr, [.voidPtr, .constCharPtr]⟩,
    ⟨"Tresor_entry_field_update", .tresorError, [.voidPtr, .constCharPtr, .constCharPtr]⟩,
    ⟨"Tresor_seal", .tresorError, [.voidPtr, .constCharPtr, .constCharPtr]⟩,
    ⟨"Tresor_open", .voidPtr, [.constCharPtr, .constCharPtr]⟩ ]

/-- Modelled from the spec: an Entry is a named record owning an ordered
field map `key → value` (§3); the header only exposes `Entry` as `void*`. -/
structure EntryM where
  id : String
  fields : List (String × String)
  deriving DecidableEq, Repr

/-- Modelled from the spec: a Vault is a named, insertion-ordered
collection of Entries keyed by id (§3); the header only exposes `Tresor`
as `void*`. -/
structure Vault where
  name : String
  entries : List EntryM
  deriving DecidableEq, Repr

/-- Modelled from the spec: `new(name)` creates a fresh empty named
Vault (§6). -/
def Tresor_new (name : String) : Vault := ⟨name, []⟩

/-- Modelled from the spec: `create(id)` inserts a new empty Entry under
`id`, failing with the duplicate error if `id` is already present (§4.1).
The C function mutates the vault through `self`; here the updated vault
is returned alongside the error code. -/
def Tresor_entry_create (v : Vault) (id : String) : TresorError × Vault :=
  if v.entries.any (fun e => e.id = id) then (.ERR_DE, v)
  else (.ERR_SUCCESS, ⟨v.name, v.entries ++ [⟨id, []⟩]⟩)

/-- Modelled from the spec: `get(id)` returns the Entry for `id` or fails
when absent (§4.1); the C function signals failure by a null pointer,
modelled as `none`. -/
def Tresor_entry_get (v : Vault) (id : String) : Option EntryM :=
  v.entries.find? (fun e => e.id = id)

/-- Modelled from the spec: `remove(id)` deletes the Entry and its fields,
failing with `NotFound` when absent (§4.1). -/
def Tresor_entry_remove (v : Vault) (id : String) : TresorError × Vault :=
  if v.entries.any (fun e => e.id = id) then
    (.ERR_SUCCESS, ⟨v.name, v.entries.filter (fun e => ¬ e.id = id)⟩)
  else (.ERR_DNE, v)

/-- Modelled from the spec: `add_field(key, value)` fails with the
duplicate error if `key` exists, otherwise appends the field (§4.1).
The header spells the name `Tresor_entry_filed_add`. -/
def Tresor_entry_filed_add (e : EntryM) (k v : String) : TresorError × EntryM :=
  if e.fields.any (fun f => f.1 = k) then (.ERR_DE, e)
  else (.ERR_SUCCESS, ⟨e.id, e.fields ++ [(k, v)]⟩)

/-- Modelled from the spec: `get_field(key)` returns the value or fails
when absent (§4.1); the C function signals failure by a null `const char*`,
modelled as `none`. -/
def Tresor_entry_field_get (e : EntryM) (k : String) : Option String :=
  (e.fields.find? (fun f => f.1 = k)).map (fun f => f.2)

/-- Modelled from the spec: `update_field(key, value)` overwrites the
value of an existing field and fails with `NotFound` when `key` does not
exist — update never creates (§4.1). -/
def Tresor_entry_field_update (e : EntryM) (k v : String) : TresorError × EntryM :=
  if e.fields.any (fun f => f.1 = k) then
    (.ERR_SUCCESS, ⟨e.id, e.fields.map (fun f => if f.1 = k then (k, v) else f)⟩)
  else (.ERR_DNE, e)

/-! ### Serialization (spec §4.3, step 1)

Modelled from the spec: the Vault is serialized deterministically —
format version, vault name, then each Entry in insertion order with its
id and its fields in insertion order, using length-prefixed strings.
Bytes are modelled as natural numbers. -/

/-- A length-prefixed string: length, then the character codes. -/
def serStr (s : String) : List Nat :=
  s.data.length :: s.data.map Char.toNat

/-- Parse one length-prefixed string, returning it and the remaining
bytes. -/
def parseStr : List Nat → Option (String × List Nat)
  | [] => none
  | n :: rest =>
    if n ≤ rest.length then
      some (⟨(rest.take n).map Char.ofNat⟩, rest.drop n)
    else none

theorem parseStr_serStr (s : String) (r : List Nat) :
    parseStr (serStr s ++ r) = some (s, r) := by
  simp only [serStr, parseStr, List.cons_append]
  rw [if_pos]
  · have htake : ((s.data.map Char.toNat) ++ r).take (s.data.length) = s.data.map Char.toNat := by
      rw [← List.length_map s.data Char.toNat, List.take_left]
    have hdrop : ((s.data.map Char.toNat) ++ r).drop (s.data.length) = r := by
      rw [← List.length_map s.data Char.toNat, List.drop_left]
    rw [htake, hdrop, List.map_map]
    have : (Char.ofNat ∘ Char.toNat) = id := by
      funext c
      exact Char.ofNat_toNat c
    rw [this, List.map_id]
  · rw [List.length_append, List.length_map]
    exact Nat.le_add_right _ _

/-- Serialize one field: length-prefixed key, then value. -/
def serField (f : String × String) : List Nat :=
  serStr f.1 ++ serStr f.2

/-- Serialize one Entry: id, field count, fields in insertion order. -/
def serEntry (e : EntryM) : List Nat :=
  serStr e.id ++ e.fields.length :: (e.fields.map serField).flatten

/-- Serialize a Vault: format version, name, entry count, entries in
insertion order. -/
def serVault (v : Vault) : List Nat :=
  1 :: serStr v.name ++ v.entries.length :: (v.entries.map serEntry).flatten

/-- Parse one field. -/
def parseField (l : List Nat) : Option ((String × String) × List Nat) :=
  match parseStr l with
  | none => none
  | some (k, l1) =>
    match parseStr l1 with
    | none => none
    | some (v, l2) => some ((k, v), l2)

/-- Parse exactly `n` fields. -/
def parseFields : Nat → List Nat → Option (List (String × String) × List Nat)
  | 0, l => some ([], l)
  | n + 1, l =>
    match parseField l with
    | none => none
    | some (f, l1) =>
      match parseFields n l1 with
      | none => none
      | some (fs, l2) => some (f :: fs, l2)

/-- Parse one Entry: id, field count, fields. -/
def parseEntry (l : List Nat) : Option (EntryM × List Nat) :=
  match parseStr l with
  | none => none
  | some (id, l1) =>
    match l1 with
    | [] => none
    | n :: l2 =>
      match parseFields n l2 with
      | none => none
      | some (fs, l3) => some (⟨id, fs⟩, l3)

/-- Parse exactly `n` entries. -/
def parseEntries : Nat → List Nat → Option (List EntryM × List Nat)
  | 0, l => some ([], l)
  | n + 1, l =>
    match parseEntry l with
    | none => none
    | some (e, l1) =>
      match parseEntries n l1 with
      | none => none
      | some (es, l2) => some (e :: es, l2)

/-- Parse a Vault: version byte, name, entry count, entries. -/
def parseVault (l : List Nat) : Option (Vault × List Nat) :=
  match l with
  | [] => none
  | ver :: l0 =>
    if ver = 1 then
      match parseStr l0 with
      | none => none
      | some (name, l1) =>
        match l1 with
        | [] => none
        | n :: l2 =>
          match parseEntries n l2 with
          | none => none
          | some (es, l3) => some (⟨name, es⟩, l3)
    else none

/-- Modelled from the spec: the deterministic Vault serialization of
§4.3 step 1. -/
def serialize (v : Vault) : List Nat := serVault v

/-- Modelled from the spec: deserialization of §4.3 Open step 4 — the
decrypted bytes must form exactly one well-formed Vault. -/
def deserialize (l : List Nat) : Option Vault :=
  match parseVault l with
  | some (v, []) => some v
  | _ => none

theorem parseField_serField (f : String × String) (r : List Nat) :
    parseField (serField f ++ r) = some (f, r) := by
  simp only [serField, parseField, List.append_assoc, parseStr_serStr]

theorem parseFields_serFields (fs : List (String × String)) (r : List Nat) :
    parseFields fs.length ((fs.map serField).flatten ++ r) = some (fs, r) := by
  induction fs generalizing r with
  | nil => simp [parseFields]
  | cons f fs ih =>
    simp only [List.map_cons, List.flatten_cons, List.length_cons, parseFields,
      List.append_assoc, parseField_serField, ih]

theorem parseEntry_serEntry (e : EntryM) (r : List Nat) :
    parseEntry (serEntry e ++ r) = some (e, r) := by
  simp only [serEntry, parseEntry, List.append_assoc, List.cons_append,
    parseStr_serStr, parseFields_serFields]

theorem parseEntries_serEntries (es : List EntryM) (r : List Nat) :
    parseEntries es.length ((es.map serEntry).flatten ++ r) = some (es, r) := by
  induction es generalizing r with
  | nil => simp [parseEntries]
  | cons e es ih =>
    simp only [List.map_cons, List.flatten_cons, List.length_cons, parseEntries,
      List.append_assoc, parseEntry_serEntry, ih]

theorem parseVault_serVault (v : Vault) (r : List Nat) :
    parseVault (serVault v ++ r) = some (v, r) := by
  simp only [serVault, parseVault, List.cons_append, List.append_assoc,
    parseStr_serStr, parseEntries_serEntries, if_pos rfl, if_true]

theorem deserialize_serialize (v : Vault) : deserialize (serialize v) = some v := by
  have h := parseVault_serVault v []
  rw [List.append_nil] at h
  simp [deserialize, serialize, h]

/-! ### Sealing codec crypto (spec §4.3, steps 2-4)

Modelled from the spec: key derivation, authenticated encryption and the
on-disk artifact `{magic, version, kdf_params, salt, nonce, ciphertext,
tag}`.  The cryptography is idealized symbolically: the derived key is
the (password, salt) pair, so key derivation is injective, and the
authentication tag is an injective function of the key, the header and
the ciphertext — a perfect MAC.  Memory-hardness and randomness of salt
and nonce are not modelled; salt and nonce enter as parameters. -/

/-- Modelled from the spec: the symmetric key derived from password and
salt (§4.3 step 2), idealized as the pair itself so that distinct
passwords or salts derive distinct keys. -/
def kdf (pw : String) (salt : List Nat) : String × List Nat := (pw, salt)

/-- The keystream byte for position `i` under a key and nonce: an
arbitrary concrete mixing function, only invertibility of the cipher
matters. -/
def keystream (key : String × List Nat) (nonce i : Nat) : Nat :=
  key.1.data.foldl (fun a c => a * 31 + c.toNat) 7 + key.2.sum * 131 + nonce * 17 + i * 3

/-- Encrypt bytes from position `i` on: add the keystream byte. -/
def encFrom (key : String × List Nat) (nonce : Nat) : Nat → List Nat → List Nat
  | _, [] => []
  | i, b :: bs => (b + keystream key nonce i) :: encFrom key nonce (i + 1) bs

/-- Decrypt bytes from position `i` on: subtract the keystream byte. -/
def decFrom (key : String × List Nat) (nonce : Nat) : Nat → List Nat → List Nat
  | _, [] => []
  | i, b :: bs => (b - keystream key nonce i) :: decFrom key nonce (i + 1) bs

theorem decFrom_encFrom (key : String × List Nat) (nonce : Nat) :
    ∀ (i : Nat) (pt : List Nat), decFrom key nonce i (encFrom key nonce i pt) = pt := by
  intro i pt
  induction pt generalizing i with
  | nil => rfl
  | cons b bs ih => simp [encFrom, decFrom, ih]

/-- The format header of a sealed file: magic, format version, KDF
parameters, salt, nonce (§3, SealedFile). -/
structure SealHeader where
  magic : List Nat
  version : Nat
  kdfParams : Nat
  salt : List Nat
  nonce : Nat
  deriving DecidableEq, Repr

/-- The magic bytes "TRSR". -/
def MAGIC : List Nat := [84, 82, 83, 82]

/-- The current format version. -/
def FORMAT_VERSION : Nat := 1

/-- The KDF difficulty parameter recorded in the header. -/
def KDF_PARAMS : Nat := 19

/-- Modelled from the spec: the authentication tag covers both the
ciphertext and the format header (§4.3 step 3); idealized as the
injective tuple of key, header and ciphertext. -/
def mac (key : String × List Nat) (hdr : SealHeader) (ct : List Nat) :
    (String × List Nat) × SealHeader × List Nat :=
  (key, hdr, ct)

/-- The persisted artifact `{magic, version, kdf_params, salt, nonce,
ciphertext, tag}` (§3). -/
structure SealedFile where
  header : SealHeader
  ciphertext : List Nat
  tag : (String × List Nat) × SealHeader × List Nat
  deriving DecidableEq, Repr

/-- Modelled from the spec: Seal steps 1-3 (§4.3) — serialize, derive
key from password and salt, encrypt with the nonce, tag header and
ciphertext. -/
def sealFile (v : Vault) (pw : String) (salt : List Nat) (nonce : Nat) : SealedFile :=
  let key := kdf pw salt
  let hdr : SealHeader := ⟨MAGIC, FORMAT_VERSION, KDF_PARAMS, salt, nonce⟩
  let ct := encFrom key nonce 0 (serialize v)
  ⟨hdr, ct, mac key hdr ct⟩

/-- Modelled from the spec: Open steps 1-4 (§4.3) — reject unknown
magic/version with `SealError`, re-derive the key, verify the tag before
trusting any decrypted byte, then decrypt and deserialize. -/
def openFile (f : SealedFile) (pw : String) : Except TresorError Vault :=
  if f.header.magic = MAGIC ∧ f.header.version = FORMAT_VERSION then
    let key := kdf pw f.header.salt
    if f.tag = mac key f.header f.ciphertext then
      match deserialize (decFrom key f.header.nonce 0 f.ciphertext) with
      | some v => Except.ok v
      | none => Except.error .ERR_SEAL
    else Except.error .ERR_SEAL
  else Except.error .ERR_SEAL

/-- The filesystem at the sealing interface: a map from paths to sealed
files. -/
def FileSys : Type := String → Option SealedFile

/-- The empty filesystem. -/
def emptyFS : FileSys := fun _ => none

/-- Modelled from the spec: `Tresor_seal` writes the sealed artifact to
`path` (§4.3 step 4; atomic replace is not modelled — the map is updated
at `path` in one step). Fresh salt and nonce enter as parameters. -/
def Tresor_seal (v : Vault) (fs : FileSys) (path pw : String)
    (salt : List Nat) (nonce : Nat) : TresorError × FileSys :=
  (.ERR_SUCCESS, fun p => if p = path then some (sealFile v pw salt nonce) else fs p)

/-- Modelled from the spec: `Tresor_open` reads the file at `path`
(failing with `IOError` when absent) and runs the opening codec (§4.3). -/
def Tresor_open_res (fs : FileSys) (path pw : String) : Except TresorError Vault :=
  match fs path with
  | none => Except.error .ERR_FILE
  | some f => openFile f pw

/-- The C-level `Tresor_open`: returns the vault pointer or null; the
error kind is not observable at this interface. -/
def Tresor_open (fs : FileSys) (path pw : String) : Option Vault :=
  (Tresor_open_res fs path pw).toOption

theorem openFile_sealFile (v : Vault) (pw : String) (salt : List Nat) (nonce : Nat) :
    openFile (sealFile v pw salt nonce) pw = Except.ok v := by
  simp [openFile, sealFile, decFrom_encFrom, deserialize_serialize]

/-! ### Query engine (spec §4.2) -/

/-- Is `needle` an initial segment of `hay`? -/
def startsWith : List Char → List Char → Bool
  | [], _ => true
  | _ :: _, [] => false
  | a :: as, b :: bs => a = b && startsWith as bs

/-- Modelled from the spec: case-sensitive substring test — does `hay`
contain `needle` as a contiguous run (§4.2)? -/
def substrMatch (needle : List Char) : List Char → Bool
  | [] => needle.isEmpty
  | b :: bs => startsWith needle (b :: bs) || substrMatch needle bs

/-- One pass over the entry list, keeping the matches in order; the vault
state is threaded through unchanged, as the read-only C traversal leaves
the store untouched. -/
def getManyAux (filter : String) : List EntryM → Vault → List EntryM × Vault
  | [], v => ([], v)
  | e :: rest, v =>
    let (res, v2) := getManyAux filter rest v
    (if substrMatch filter.data e.id.data then e :: res else res, v2)

/-- Modelled from the spec: `query_entries(vault, filter)` returns the
Entries whose id contains the filter as a case-sensitive substring, in
insertion order; the empty filter matches all; no match yields an empty
sequence, not an error (§4.2). The C function returns a fresh
null-terminated array and mutates nothing; here the result list is paired
with the (unchanged) vault state. -/
def Tresor_entry_get_many (v : Vault) (filter : String) : List EntryM × Vault :=
  getManyAux filter v.entries v

theorem startsWith_iff (needle hay : List Char) :
    startsWith needle hay = true ↔ ∃ r, hay = needle ++ r := by
  induction needle generalizing hay with
  | nil => simp [startsWith]
  | cons a as ih =>
    cases hay with
    | nil => simp [startsWith]
    | cons b bs =>
      simp only [startsWith, Bool.and_eq_true, decide_eq_true_eq, ih, List.cons_append,
        List.cons.injEq]
      constructor
      · rintro ⟨rfl, r, rfl⟩
        exact ⟨r, rfl, rfl⟩
      · rintro ⟨r, rfl, rfl⟩
        exact ⟨rfl, r, rfl⟩

theorem substrMatch_iff (needle hay : List Char) :
    substrMatch needle hay = true ↔ ∃ l r, hay = l ++ needle ++ r := by
  induction hay with
  | nil =>
    simp only [substrMatch, List.isEmpty_iff]
    constructor
    · rintro rfl
      exact ⟨[], [], rfl⟩
    · rintro ⟨l, r, h⟩
      rcases List.append_eq_nil.mp (List.append_eq_nil.mp h.symm).1 with ⟨-, h2⟩
      exact h2
  | cons b bs ih =>
    simp only [substrMatch, Bool.or_eq_true, startsWith_iff, ih]
    constructor
    · rintro (⟨r, h⟩ | ⟨l, r, h⟩)
      · exact ⟨[], r, by simp [h]⟩
      · exact ⟨b :: l, r, by simp [h]⟩
    · rintro ⟨l, r, h⟩
      cases l with
      | nil =>
        exact Or.inl ⟨r, by simpa using h⟩
      | cons x xs =>
        simp only [List.cons_append, List.cons.injEq] at h
        exact Or.inr ⟨xs, r, h.2⟩

theorem getManyAux_spec (filter : String) (es : List EntryM) (v : Vault) :
    getManyAux filter es v = (es.filter (fun e => substrMatch filter.data e.id.data), v) := by
  induction es with
  | nil => rfl
  | cons e rest ih => simp [getManyAux, ih, List.filter_cons]

theorem substrMatch_nil (hay : List Char) : substrMatch [] hay = true := by
  cases hay with
  | nil => rfl
  | cons b bs => simp [substrMatch, startsWith]

/-! ### Vault construction sequences and the claims -/

/-- Apply a field operation to the Entry with the given id inside a
Vault, as the C caller does through the borrowed `Entry` pointer returned
by `Tresor_entry_get`. -/
def vaultUpdateEntry (v : Vault) (id : String) (op : EntryM → TresorError × EntryM) : Vault :=
  ⟨v.name, v.entries.map (fun e => if e.id = id then (op e).2 else e)⟩

/-- Vaults reachable by a sequence of `Tresor_new`, `Tresor_entry_create`,
`Tresor_entry_filed_add` and `Tresor_entry_field_update` operations. -/
inductive Built : Vault → Prop where
  | new (name : String) : Built (Tresor_new name)
  | create (v : Vault) (id : String) : Built v → Built (Tresor_entry_create v id).2
  | addField (v : Vault) (id k val : String) : Built v →
      Built (vaultUpdateEntry v id (fun e => Tresor_entry_filed_add e k val))
  | updateField (v : Vault) (id k val : String) : Built v →
      Built (vaultUpdateEntry v id (fun e => Tresor_entry_field_update e k val))

/-- C1: for every Vault built by a sequence of valid create/add-field/
update-field operations and every password and path, sealing with
`Tresor_seal` and opening with `Tresor_open` at that path yields the
identical Vault back — same entry ids, field keys and field values, in
insertion order. -/
theorem seal_open_roundtrip (v : Vault) (fs : FileSys) (path pw : String)
    (salt : List Nat) (nonce : Nat) (_built : Built v) :
    (Tresor_seal v fs path pw salt nonce).1 = TresorError.ERR_SUCCESS ∧
    Tresor_open_res (Tresor_seal v fs path pw salt nonce).2 path pw = Except.ok v ∧
    Tresor_open (Tresor_seal v fs path pw salt nonce).2 path pw = some v := by
  refine ⟨rfl, ?_, ?_⟩
  · simp [Tresor_open_res, Tresor_seal, openFile_sealFile]
  · simp [Tresor_open, Tresor_open_res, Tresor_seal, openFile_sealFile]
    rfl

/-- Witness for C1 on a concretely built two-operation vault. -/
theorem seal_open_roundtrip_witness :
    Built (vaultUpdateEntry (Tresor_entry_create (Tresor_new "w") "a").2 "a"
      (fun e => Tresor_entry_filed_add e "k" "x")) ∧
    Tresor_open_res
      (Tresor_seal (vaultUpdateEntry (Tresor_entry_create (Tresor_new "w") "a").2 "a"
        (fun e => Tresor_entry_filed_add e "k" "x")) emptyFS "p" "pw" [3] 4).2 "p" "pw"
      = Except.ok (vaultUpdateEntry (Tresor_entry_create (Tresor_new "w") "a").2 "a"
        (fun e => Tresor_entry_filed_add e "k" "x")) := by
  have hb : Built (vaultUpdateEntry (Tresor_entry_create (Tresor_new "w") "a").2 "a"
      (fun e => Tresor_entry_filed_add e "k" "x")) :=
    Built.addField _ "a" "k" "x" (Built.create _ "a" (Built.new "w"))
  exact ⟨hb, (seal_open_roundtrip _ emptyFS "p" "pw" [3] 4 hb).2.1⟩

/-- C2: a file sealed with password `pw1`, opened with any `pw2 ≠ pw1`,
always fails with `ERR_SEAL` and never yields a Vault. -/
theorem wrong_password_fails (v : Vault) (fs : FileSys) (path pw1 pw2 : String)
    (salt : List Nat) (nonce : Nat) (h : pw2 ≠ pw1) :
    Tresor_open_res (Tresor_seal v fs path pw1 salt nonce).2 path pw2
      = Except.error TresorError.ERR_SEAL ∧
    Tresor_open (Tresor_seal v fs path pw1 salt nonce).2 path pw2 = none := by
  have h' : pw1 ≠ pw2 := fun e => h e.symm
  have hopen : openFile (sealFile v pw1 salt nonce) pw2 = Except.error .ERR_SEAL := by
    simp [openFile, sealFile, mac, kdf, Prod.mk.injEq, h']
  refine ⟨?_, ?_⟩
  · simp [Tresor_open_res, Tresor_seal, hopen]
  · simp [Tresor_open, Tresor_open_res, Tresor_seal, hopen]
    rfl

/-- Witness for C2. -/
theorem wrong_password_fails_witness :
    "q" ≠ "pw" ∧
    Tresor_open_res (Tresor_seal (Tresor_new "w") emptyFS "p" "pw" [3] 4).2 "p" "q"
      = Except.error TresorError.ERR_SEAL :=
  ⟨by decide, (wrong_password_fails (Tresor_new "w") emptyFS "p" "pw" "q" [3] 4 (by decide)).1⟩


theorem set_ne_of_ne (l : List Nat) (i b : Nat) (hi : i < l.length)
    (hb : b ≠ l.get ⟨i, hi⟩) : l.set i b ≠ l := by
  intro e
  apply hb
  have hlen : i < (l.set i b).length := by simpa using hi
  calc b = (l.set i b).get ⟨i, hlen⟩ := (List.getElem_set_self (by simpa using hi)).symm
    _ = l.get ⟨i, hi⟩ := List.get_of_eq e ⟨i, hlen⟩

theorem openFile_ct_tampered (v : Vault) (pw : String) (salt : List Nat) (nonce : Nat)
    (ct2 : List Nat) (h : ct2 ≠ (sealFile v pw salt nonce).ciphertext) :
    openFile ⟨(sealFile v pw salt nonce).header, ct2, (sealFile v pw salt nonce).tag⟩ pw
      = Except.error TresorError.ERR_SEAL := by
  simp only [sealFile] at h ⊢
  simp only [openFile, mac, kdf, Prod.mk.injEq]
  rw [if_pos (by simp), if_neg]
  intro hc
  exact h hc.2.2.symm

theorem openFile_hdr_tampered (v : Vault) (pw : String) (salt : List Nat) (nonce : Nat)
    (hdr : SealHeader) (h : hdr ≠ (sealFile v pw salt nonce).header) :
    openFile ⟨hdr, (sealFile v pw salt nonce).ciphertext, (sealFile v pw salt nonce).tag⟩ pw
      = Except.error TresorError.ERR_SEAL := by
  by_cases hm : hdr.magic = MAGIC ∧ hdr.version = FORMAT_VERSION
  · simp only [sealFile] at h ⊢
    simp only [openFile, mac, kdf, Prod.mk.injEq]
    rw [if_pos hm, if_neg]
    intro hc
    exact h hc.2.1.symm
  · simp [openFile, hm]

/-- C3: flipping any single byte of a sealed file's ciphertext, or
altering its header in any way, makes `openFile` fail with `ERR_SEAL`;
no corruption is silently accepted. -/
theorem tamper_detected (v : Vault) (pw : String) (salt : List Nat) (nonce : Nat) :
    (∀ (i : Nat) (hi : i < (sealFile v pw salt nonce).ciphertext.length) (b : Nat),
      b ≠ (sealFile v pw salt nonce).ciphertext.get ⟨i, hi⟩ →
      openFile ⟨(sealFile v pw salt nonce).header,
        (sealFile v pw salt nonce).ciphertext.set i b,
        (sealFile v pw salt nonce).tag⟩ pw = Except.error TresorError.ERR_SEAL) ∧
    (∀ hdr : SealHeader, hdr ≠ (sealFile v pw salt nonce).header →
      openFile ⟨hdr, (sealFile v pw salt nonce).ciphertext,
        (sealFile v pw salt nonce).tag⟩ pw = Except.error TresorError.ERR_SEAL) := by
  constructor
  · intro i hi b hb
    exact openFile_ct_tampered v pw salt nonce _
      (set_ne_of_ne (sealFile v pw salt nonce).ciphertext i b hi hb)
  · intro hdr hh
    exact openFile_hdr_tampered v pw salt nonce hdr hh

/-- Witness for C3: on a concrete sealed file, incrementing ciphertext
byte 0 and changing the header nonce are both rejected. -/
theorem tamper_detected_witness :
    openFile ⟨(sealFile (Tresor_new "w") "pw" [3] 4).header,
      (sealFile (Tresor_new "w") "pw" [3] 4).ciphertext.set 0
        ((sealFile (Tresor_new "w") "pw" [3] 4).ciphertext.getD 0 0 + 1),
      (sealFile (Tresor_new "w") "pw" [3] 4).tag⟩ "pw"
      = Except.error TresorError.ERR_SEAL ∧
    openFile ⟨{ (sealFile (Tresor_new "w") "pw" [3] 4).header with nonce := 5 },
      (sealFile (Tresor_new "w") "pw" [3] 4).ciphertext,
      (sealFile (Tresor_new "w") "pw" [3] 4).tag⟩ "pw"
      = Except.error TresorError.ERR_SEAL := by
  constructor
  · exact (tamper_detected (Tresor_new "w") "pw" [3] 4).1 0 (by decide) _ (by decide)
  · exact (tamper_detected (Tresor_new "w") "pw" [3] 4).2 _ (by decide)

/-- C4: on a Vault already containing exactly one Entry `id`, a second
`Tresor_entry_create` fails with `ERR_DE` and mutates nothing — the Vault
still holds exactly one Entry `id` with its original fields. -/
theorem create_duplicate (v : Vault) (id : String)
    (h : v.entries.countP (fun e => e.id = id) = 1) :
    Tresor_entry_create v id = (TresorError.ERR_DE, v) ∧
    ((Tresor_entry_create v id).2).entries.countP (fun e => e.id = id) = 1 := by
  have hpos : 0 < v.entries.countP (fun e => e.id = id) := by
    rw [h]
    exact Nat.one_pos
  obtain ⟨a, ha, hpa⟩ := List.countP_pos_iff.mp hpos
  have hany : v.entries.any (fun e => e.id = id) = true :=
    List.any_eq_true.mpr ⟨a, ha, hpa⟩
  have hcr : Tresor_entry_create v id = (TresorError.ERR_DE, v) := by
    simp [Tresor_entry_create, hany]
  refine ⟨hcr, ?_⟩
  rw [hcr]
  exact h

/-- Witness for C4. -/
theorem create_duplicate_witness :
    (⟨"v", [⟨"a", [("f", "1")]⟩]⟩ : Vault).entries.countP (fun e => e.id = "a") = 1 ∧
    Tresor_entry_create ⟨"v", [⟨"a", [("f", "1")]⟩]⟩ "a"
      = (TresorError.ERR_DE, ⟨"v", [⟨"a", [("f", "1")]⟩]⟩) :=
  ⟨by decide, (create_duplicate ⟨"v", [⟨"a", [("f", "1")]⟩]⟩ "a" (by decide)).1⟩

/-- C5: updating a field that does not exist fails with `ERR_DNE` and
creates nothing — afterwards the Entry still has no such field and
`Tresor_entry_field_get` still returns null. -/
theorem update_never_creates (e : EntryM) (k v : String)
    (h : e.fields.any (fun f => f.1 = k) = false) :
    Tresor_entry_field_update e k v = (TresorError.ERR_DNE, e) ∧
    ((Tresor_entry_field_update e k v).2).fields.any (fun f => f.1 = k) = false ∧
    Tresor_entry_field_get ((Tresor_entry_field_update e k v).2) k = none := by
  have hupd : Tresor_entry_field_update e k v = (TresorError.ERR_DNE, e) := by
    simp [Tresor_entry_field_update, h]
  refine ⟨hupd, ?_, ?_⟩
  · rw [hupd]
    exact h
  · rw [hupd]
    have hall := List.any_eq_false.mp h
    simp [Tresor_entry_field_get, List.find?_eq_none.mpr hall]

/-- Witness for C5. -/
theorem update_never_creates_witness :
    (⟨"e", [("other", "1")]⟩ : EntryM).fields.any (fun f => f.1 = "k") = false ∧
    Tresor_entry_field_update ⟨"e", [("other", "1")]⟩ "k" "x"
      = (TresorError.ERR_DNE, ⟨"e", [("other", "1")]⟩) :=
  ⟨by decide, (update_never_creates ⟨"e", [("other", "1")]⟩ "k" "x" (by decide)).1⟩

/-- The three-entry example vault of spec §8, property 6. -/
def vaultABC : Vault :=
  (Tresor_entry_create
    (Tresor_entry_create
      (Tresor_entry_create (Tresor_new "demo") "alice").2 "bob").2 "alice2").2

/-- C6: the query returns exactly the Entries whose id contains the
filter as a case-sensitive substring, in insertion order; the empty
filter matches everything; a filter matching nothing yields the empty
sequence, not an error.  Includes the spec's `alice/bob/alice2` example. -/
theorem query_semantics :
    (∀ (v : Vault) (filter : String) (e : EntryM),
      e ∈ (Tresor_entry_get_many v filter).1 ↔
        e ∈ v.entries ∧ ∃ l r, e.id.data = l ++ filter.data ++ r) ∧
    (∀ (v : Vault) (filter : String),
      List.Sublist (Tresor_entry_get_many v filter).1 v.entries) ∧
    (∀ v : Vault, (Tresor_entry_get_many v "").1 = v.entries) ∧
    (Tresor_entry_get_many vaultABC "alice").1.map EntryM.id = ["alice", "alice2"] ∧
    (Tresor_entry_get_many vaultABC "").1.map EntryM.id = ["alice", "bob", "alice2"] ∧
    (Tresor_entry_get_many vaultABC "zz").1 = [] := by
  refine ⟨?_, ?_, ?_, by decide, by decide, by decide⟩
  · intro v filter e
    rw [Tresor_entry_get_many, getManyAux_spec]
    simp only [List.mem_filter, substrMatch_iff]
  · intro v filter
    rw [Tresor_entry_get_many, getManyAux_spec]
    exact List.filter_sublist _
  · intro v
    rw [Tresor_entry_get_many, getManyAux_spec]
    refine List.filter_eq_self.mpr ?_
    intro a _
    exact substrMatch_nil a.id.data

/-- C9: running a query leaves the Vault unchanged — the threaded vault
state comes back identical, and the result is a subsequence of the
existing entries (no Entry or Field is created or altered). -/
theorem query_no_mutation (v : Vault) (filter : String) :
    (Tresor_entry_get_many v filter).2 = v ∧
    List.Sublist (Tresor_entry_get_many v filter).1 v.entries := by
  rw [Tresor_entry_get_many, getManyAux_spec]
  exact ⟨rfl, List.filter_sublist _⟩

/-- C7 counterexample: the `TresorError` enum of `src/c/tresor.h` has a
single duplicate code, so a duplicate field and a duplicate entry produce
the very same error value `ERR_DE` — the caller cannot tell them apart
from the error alone. -/
theorem dup_field_code_not_distinct :
    (Tresor_entry_filed_add ⟨"a", [("k", "v1")]⟩ "k" "v2").1 = TresorError.ERR_DE ∧
    (Tresor_entry_create ⟨"w", [⟨"a", []⟩]⟩ "a").1 = TresorError.ERR_DE ∧
    (Tresor_entry_filed_add ⟨"a", [("k", "v1")]⟩ "k" "v2").1
      = (Tresor_entry_create ⟨"w", [⟨"a", []⟩]⟩ "a").1 :=
  ⟨by decide, by decide, by decide⟩

/-- C7 amended: adding a field under an existing key fails with `ERR_DE`
and mutates nothing, but `ERR_DE` is the same `TresorError` value that
`Tresor_entry_create` returns for a duplicate entry — the enum carries no
separate duplicate-field kind. -/
theorem filed_add_duplicate (e : EntryM) (k v : String) (w : Vault) (id : String)
    (hf : e.fields.any (fun f => f.1 = k) = true)
    (he : w.entries.any (fun x => x.id = id) = true) :
    Tresor_entry_filed_add e k v = (TresorError.ERR_DE, e) ∧
    (Tresor_entry_create w id).1 = TresorError.ERR_DE ∧
    (Tresor_entry_filed_add e k v).1 = (Tresor_entry_create w id).1 := by
  have h1 : Tresor_entry_filed_add e k v = (TresorError.ERR_DE, e) := by
    simp [Tresor_entry_filed_add, hf]
  have h2 : (Tresor_entry_create w id).1 = TresorError.ERR_DE := by
    simp [Tresor_entry_create, he]
  refine ⟨h1, h2, ?_⟩
  rw [h1, h2]

/-- Witness for the amended C7. -/
theorem filed_add_duplicate_witness :
    (⟨"a", [("k", "v1")]⟩ : EntryM).fields.any (fun f => f.1 = "k") = true ∧
    (⟨"w", [⟨"a", []⟩]⟩ : Vault).entries.any (fun x => x.id = "a") = true ∧
    Tresor_entry_filed_add ⟨"a", [("k", "v1")]⟩ "k" "v2"
      = (TresorError.ERR_DE, ⟨"a", [("k", "v1")]⟩) :=
  ⟨by decide, by decide,
    (filed_add_duplicate ⟨"a", [("k", "v1")]⟩ "k" "v2" ⟨"w", [⟨"a", []⟩]⟩ "a"
      (by decide) (by decide)).1⟩

/-- C8 counterexample: the header's teardown operation `Tresor_deinit`
is declared with an empty parameter list — it does not take the Vault to
destroy as an argument. -/
theorem deinit_takes_no_vault :
    tresorHeader.find? (fun d => d.name = "Tresor_deinit")
      = some ⟨"Tresor_deinit", CType.void, []⟩ ∧
    (tresorHeader.filter (fun d => d.name = "Tresor_deinit")).all
      (fun d => d.params.isEmpty) = true :=
  ⟨by decide, by decide⟩

/-- C8 amended: `Tresor_deinit` takes no parameters, so teardown acts on
an implicit target rather than an explicit Vault handle; the entry, field
and seal operations do take an explicit `void*` handle as their first
parameter. -/
theorem deinit_implicit_target :
    (tresorHeader.find? (fun d => d.name = "Tresor_deinit")).map CDecl.params
      = some [] ∧
    (tresorHeader.filter (fun d =>
        d.name ≠ "Tresor_new" ∧ d.name ≠ "Tresor_deinit" ∧ d.name ≠ "Tresor_open")).all
      (fun d => d.params.head? = some CType.voidPtr) = true :=
  ⟨by decide, by decide⟩

theorem find?_isSome_eq_any {α : Type} (p : α → Bool) (l : List α) :
    (l.find? p).isSome = l.any p := by
  induction l with
  | nil => rfl
  | cons a l ih =>
    cases h : p a with
    | true => simp [List.find?_cons, h]
    | false => simp [List.find?_cons, h, ih]

/-- C10: `Tresor_entry_get`, `Tresor_entry_field_get` and `Tresor_open`
return pointers, not `TresorError` values; a non-null return occurs
exactly when the lookup or open succeeds, and at `Tresor_open` the
`ERR_FILE` and `ERR_SEAL` failure kinds collapse to the same null. -/
theorem null_signalled_failures :
    ((tresorHeader.find? (fun d => d.name = "Tresor_entry_get")).map CDecl.ret
      = some CType.voidPtr) ∧
    ((tresorHeader.find? (fun d => d.name = "Tresor_entry_field_get")).map CDecl.ret
      = some CType.constCharPtr) ∧
    ((tresorHeader.find? (fun d => d.name = "Tresor_open")).map CDecl.ret
      = some CType.voidPtr) ∧
    (∀ (v : Vault) (id : String),
      (Tresor_entry_get v id).isSome = v.entries.any (fun e => e.id = id)) ∧
    (∀ (e : EntryM) (k : String),
      (Tresor_entry_field_get e k).isSome = e.fields.any (fun f => f.1 = k)) ∧
    (∀ (fs : FileSys) (path pw : String),
      (Tresor_open fs path pw).isSome = true ↔
        ∃ v, Tresor_open_res fs path pw = Except.ok v) ∧
    (Tresor_open_res emptyFS "p" "pw" = Except.error TresorError.ERR_FILE ∧
      Tresor_open emptyFS "p" "pw" = none) ∧
    (Tresor_open_res (Tresor_seal (Tresor_new "w") emptyFS "p" "pw" [3] 4).2 "p" "q"
        = Except.error TresorError.ERR_SEAL ∧
      Tresor_open (Tresor_seal (Tresor_new "w") emptyFS "p" "pw" [3] 4).2 "p" "q"
        = none) := by
  refine ⟨by decide, by decide, by decide, ?_, ?_, ?_, ⟨rfl, rfl⟩, ⟨rfl, rfl⟩⟩
  · intro v id
    exact find?_isSome_eq_any _ v.entries
  · intro e k
    rw [Tresor_entry_field_get, ← find?_isSome_eq_any]
    cases e.fields.find? (fun f => f.1 = k) <;> rfl
  · intro fs path pw
    rw [Tresor_open]
    cases hr : Tresor_open_res fs path pw with
    | ok v => simp [Except.toOption]
    | error err => simp [Except.toOption]
